import Mathlib

/-!
Shallow embedding of the csdmpy CSDM container (src/csdmpy/csdm.py) and the
collaborators it uses (the Dimension / DependentVariable classes, the astropy
unit subsystem), together with theorems settling the frozen claims.

Numeric data is modelled over the rationals.  Python exceptions are modelled
with an explicit error type: operations that may raise return an
`Except Err _` value, and in-place operations whose partial effects matter
return the post-call state together with an optional error.
-/

/-- Error classes raised by the code paths under study.  The Python source
raises Exception / TypeError / IndexError / ValueError / NotImplementedError /
astropy UnitConversionError with human-readable messages; only the class
matters for the claims. -/
inductive Err where
  | typeError
  | indexError
  | valueError
  | incompatibleDimensions
  | incompatibleDependentVariableCount
  | incompatiblePhysicalType
  | unitConversion
  | notImplemented
  | deleteNotAllowed
deriving DecidableEq, Repr

/-- Physical dimensionality of a unit as exponents over two base dimensions
(length and time suffice for the claims).  Modelled from the spec: the astropy
unit subsystem ("physical type": the unit-conversion equivalence class of a
unit) is an external collaborator of the core. -/
structure PhysType where
  length : ℤ
  time : ℤ
deriving DecidableEq, Repr

/-- Product of physical types: exponents add. -/
def PhysType.mul (a b : PhysType) : PhysType :=
  ⟨a.length + b.length, a.time + b.time⟩

/-- The dimensionless physical type. -/
def PhysType.one : PhysType := ⟨0, 0⟩

/-- A named unit symbol (like m, km, s): a physical type and an SI scale
factor.  Modelled from the spec: "given a unit string, produce a unit value;
given two units of matching physical type, produce a numeric conversion
factor". -/
structure UnitSym where
  phys : PhysType
  si : ℚ
deriving DecidableEq, Repr

/-- A unit as astropy represents products of named units: a formal product of
unit symbols.  A product unit keeps the symbols of both operands. -/
structure SUnit where
  syms : List UnitSym
deriving DecidableEq, Repr

/-- Physical type of a unit: product of the physical types of its symbols. -/
def SUnit.physicalType (u : SUnit) : PhysType :=
  u.syms.foldr (fun s acc => s.phys.mul acc) PhysType.one

/-- SI value of a unit: product of the SI factors of its symbols. -/
def SUnit.siValue (u : SUnit) : ℚ :=
  u.syms.foldr (fun s acc => s.si * acc) 1

/-- Product of two units (astropy unit multiplication: formal product). -/
def SUnit.mul (u v : SUnit) : SUnit :=
  ⟨u.syms ++ v.syms⟩

/-- Conversion factor from unit u to unit v (astropy u.to(v)): succeeds with
the ratio of SI values when the physical types match, raises a
UnitConversionError otherwise. -/
def SUnit.to (u v : SUnit) : Except Err ℚ :=
  if u.physicalType = v.physicalType then .ok (u.siValue / v.siValue)
  else .error .unitConversion

/-- A unit-bearing scalar quantity (astropy Quantity): a numeric value and a
unit. -/
structure Qty where
  value : ℚ
  unit : SUnit
deriving DecidableEq, Repr

/-- Multiplication of quantities (astropy): values multiply, units compose. -/
def Qty.mul (a b : Qty) : Qty :=
  ⟨a.value * b.value, a.unit.mul b.unit⟩

/-- The quantity 1 * u built by the source expression
`1 * item.subtype._unit`. -/
def unitAsQuantity (u : SUnit) : Qty := ⟨1, u⟩

/-- Modelled from the spec: the Dimension variant classes of
csdmpy.dimensions are not under src/.  "Dimension (variant): Linear (count,
increment, offset), Monotonic (explicit coordinate sequence), Labeled (string
labels, no numeric unit).  Equality is structural (type + all defining
fields)."  Only the count and structural equality are consumed by the
container code under study. -/
inductive Dimension where
  | linear (count : Nat) (increment : ℚ) (offset : ℚ)
  | monotonic (coordinates : List ℚ)
  | labeled (labels : List String)
deriving DecidableEq, Repr

/-- Count of grid points along a dimension. -/
def Dimension.count : Dimension → Nat
  | .linear c _ _ => c
  | .monotonic xs => xs.length
  | .labeled ls => ls.length

/-- Modelled from the spec: the DependentVariable class of
csdmpy.dependent_variables is not under src/.  The embedding keeps the fields
the container code under study reads and writes: the unit, the leading
component count p, and the flat row-major component data (a p x N array
stored as one flat list; the full array shape is p followed by the reversed
dimension counts).  Name, description, labels and the other metadata fields
are carried through every operation unchanged and are omitted. -/
structure DependentVariable where
  unit : SUnit
  p : Nat
  components : List ℚ
deriving DecidableEq, Repr

/-- Placeholder dependent variable for List.getD reads. -/
def dvDefault : DependentVariable := ⟨⟨[]⟩, 0, []⟩

/-- The CSDM container (class CSDM of src/csdmpy/csdm.py), reduced to the two
fields the arithmetic and reduction claims read and write: the ordered
dimension list and the ordered dependent-variable list.  The metadata slots
(tags, description, application, ...) are value-copied unchanged by every
operation modelled here; object identity of the mutable slots is modelled
separately by the store-based CSDMRef model below. -/
structure CSDM where
  dimensions : List Dimension
  dependent_variables : List DependentVariable
deriving DecidableEq, Repr

/-- Shape of the container: tuple of counts along each dimension
(CSDM.shape). -/
def CSDM.shape (c : CSDM) : List Nat :=
  c.dimensions.map Dimension.count

/-- Dimension equality check of CSDM.__check_dimension_equality: raises when
the dimension sequences are not element-wise equal (DimensionList.__eq__ is
element-wise structural equality at equal lengths). -/
def checkDimensionEquality (a b : CSDM) : Except Err Unit :=
  if a.dimensions = b.dimensions then .ok ()
  else .error .incompatibleDimensions

/-- Length check of CSDM.__check_dependent_variable_len_equality. -/
def checkDependentVariableLenEquality (a b : CSDM) : Except Err Unit :=
  if a.dependent_variables.length = b.dependent_variables.length then .ok ()
  else .error .incompatibleDependentVariableCount

/-- Pairwise physical-type loop of
CSDM.__check_dependent_variable_dimensionality: zip of the two
dependent-variable lists, raising at the first pair whose units have
different physical types. -/
def checkDVDimensionalityLoop :
    List DependentVariable → List DependentVariable → Except Err Unit
  | v1 :: t1, v2 :: t2 =>
    if v1.unit.physicalType = v2.unit.physicalType then
      checkDVDimensionalityLoop t1 t2
    else .error .incompatiblePhysicalType
  | _, _ => .ok ()

/-- CSDM.__check_csdm_object_additive_compatibility: dimension equality, then
dependent-variable count equality, then pairwise physical-type equality (the
first failing check raises and aborts the rest). -/
def checkAdditiveCompatibility (a b : CSDM) : Except Err Unit :=
  match checkDimensionEquality a b with
  | .error e => .error e
  | .ok _ =>
    match checkDependentVariableLenEquality a b with
    | .error e => .error e
    | .ok _ =>
      checkDVDimensionalityLoop a.dependent_variables b.dependent_variables

/-- Additive compatibility as a boolean predicate (the spec's notion):
dimension sequences structurally equal, equal dependent-variable count, each
corresponding pair of dependent variables of one physical type. -/
def additivelyCompatible (a b : CSDM) : Bool :=
  a.dimensions == b.dimensions &&
  a.dependent_variables.length == b.dependent_variables.length &&
  (a.dependent_variables.zip b.dependent_variables).all
    (fun pr => pr.1.unit.physicalType == pr.2.unit.physicalType)

/-- Loop body shared by CSDM.__add__ with a CSDM operand: pairs the left
container's dependent variables with the right one's, converts the right
components to the left unit and adds element-wise. -/
def addDVLoop :
    List DependentVariable → List DependentVariable →
    Except Err (List DependentVariable)
  | [], _ => .ok []
  | _ :: _, [] => .error .indexError
  | x :: xs, y :: ys =>
    match y.unit.to x.unit with
    | .error e => .error e
    | .ok factor =>
      match addDVLoop xs ys with
      | .error e => .error e
      | .ok rest =>
        let comps := x.components.zipWith (fun cx cy => cx + factor * cy) y.components
        .ok ({ x with components := comps } :: rest)

/-- Loop body of CSDM.__sub__ with a CSDM operand. -/
def subDVLoop :
    List DependentVariable → List DependentVariable →
    Except Err (List DependentVariable)
  | [], _ => .ok []
  | _ :: _, [] => .error .indexError
  | x :: xs, y :: ys =>
    match y.unit.to x.unit with
    | .error e => .error e
    | .ok factor =>
      match subDVLoop xs ys with
      | .error e => .error e
      | .ok rest =>
        let comps := x.components.zipWith (fun cx cy => cx - factor * cy) y.components
        .ok ({ x with components := comps } :: rest)

/-- CSDM.__add__ with a CSDM operand: compatibility check, then a deep copy
of the left operand with each dependent variable's components replaced by the
unit-converted element-wise sum. -/
def CSDM.addCSDM (a b : CSDM) : Except Err CSDM :=
  match checkAdditiveCompatibility a b with
  | .error e => .error e
  | .ok _ =>
    match addDVLoop a.dependent_variables b.dependent_variables with
    | .error e => .error e
    | .ok dvs => .ok { a with dependent_variables := dvs }

/-- CSDM.__sub__ with a CSDM operand. -/
def CSDM.subCSDM (a b : CSDM) : Except Err CSDM :=
  match checkAdditiveCompatibility a b with
  | .error e => .error e
  | .ok _ =>
    match subDVLoop a.dependent_variables b.dependent_variables with
    | .error e => .error e
    | .ok dvs => .ok { a with dependent_variables := dvs }

/-- CSDM.__iadd__ with a CSDM operand: the same compatibility check runs
before any mutation; the in-place loop computes the same components as
__add__, so the resulting value coincides with the copy-based form. -/
def CSDM.iaddCSDM (a b : CSDM) : Except Err CSDM :=
  match checkAdditiveCompatibility a b with
  | .error e => .error e
  | .ok _ =>
    match addDVLoop a.dependent_variables b.dependent_variables with
    | .error e => .error e
    | .ok dvs => .ok { a with dependent_variables := dvs }

/-- CSDM.__isub__ with a CSDM operand. -/
def CSDM.isubCSDM (a b : CSDM) : Except Err CSDM :=
  match checkAdditiveCompatibility a b with
  | .error e => .error e
  | .ok _ =>
    match subDVLoop a.dependent_variables b.dependent_variables with
    | .error e => .error e
    | .ok dvs => .ok { a with dependent_variables := dvs }

lemma checkAdditiveCompatibility_error_of_not_compatible (a b : CSDM)
    (h : additivelyCompatible a b = false) :
    ∃ e, checkAdditiveCompatibility a b = .error e := by
  unfold additivelyCompatible at h
  unfold checkAdditiveCompatibility checkDimensionEquality
    checkDependentVariableLenEquality
  by_cases hdim : a.dimensions = b.dimensions
  · by_cases hlen :
        a.dependent_variables.length = b.dependent_variables.length
    · simp only [hdim, if_true, hlen]
      simp only [hdim, hlen, beq_self_eq_true, Bool.true_and,
        beq_iff_eq] at h
      generalize hb : b.dependent_variables = lb at h hlen
      generalize ha : a.dependent_variables = la at h hlen
      clear ha hb
      induction la generalizing lb with
      | nil => cases lb <;> simp_all [checkDVDimensionalityLoop]
      | cons x xs ih =>
        cases lb with
        | nil => simp at hlen
        | cons y ys =>
          by_cases hxy : x.unit.physicalType = y.unit.physicalType
          · simp only [checkDVDimensionalityLoop, if_pos hxy]
            refine ih ys ?_ (by simpa using hlen)
            simpa [hxy] using h
          · exact ⟨Err.incompatiblePhysicalType,
              by simp [checkDVDimensionalityLoop, hxy]⟩
    · exact ⟨Err.incompatibleDependentVariableCount, by simp [hdim, hlen]⟩
  · exact ⟨Err.incompatibleDimensions, by simp [hdim]⟩

/-- C1. For every pair of CSDM containers, the additive operations +, -, +=
and -= with a CSDM operand fail (raising an IncompatibleOperands-class error
and producing no result container) whenever the dimension sequences are not
element-wise equal, or the dependent-variable counts differ, or some
corresponding pair of dependent variables has units of differing physical
type. -/
theorem c1_additive_ops_fail_on_incompatibility (a b : CSDM)
    (h : additivelyCompatible a b = false) :
    (a.addCSDM b).isOk = false ∧ (a.subCSDM b).isOk = false ∧
    (a.iaddCSDM b).isOk = false ∧ (a.isubCSDM b).isOk = false := by
  obtain ⟨e, he⟩ := checkAdditiveCompatibility_error_of_not_compatible a b h
  refine ⟨?_, ?_, ?_, ?_⟩ <;>
    simp [CSDM.addCSDM, CSDM.subCSDM, CSDM.iaddCSDM, CSDM.isubCSDM, he,
      Except.isOk, Except.toBool]

/-- Witness for C1: two containers whose dimension counts differ (2 versus 3)
are rejected by all four additive operations. -/
theorem c1_witness :
    additivelyCompatible ⟨[Dimension.linear 2 1 0], []⟩
        ⟨[Dimension.linear 3 1 0], []⟩ = false ∧
    ((CSDM.addCSDM ⟨[Dimension.linear 2 1 0], []⟩
        ⟨[Dimension.linear 3 1 0], []⟩).isOk = false ∧
      (CSDM.subCSDM ⟨[Dimension.linear 2 1 0], []⟩
        ⟨[Dimension.linear 3 1 0], []⟩).isOk = false ∧
      (CSDM.iaddCSDM ⟨[Dimension.linear 2 1 0], []⟩
        ⟨[Dimension.linear 3 1 0], []⟩).isOk = false ∧
      (CSDM.isubCSDM ⟨[Dimension.linear 2 1 0], []⟩
        ⟨[Dimension.linear 3 1 0], []⟩).isOk = false) :=
  ⟨by decide, c1_additive_ops_fail_on_incompatibility _ _ (by decide)⟩

/-- CSDM.__add__ with a bare (unitless) scalar operand: a deep copy of the
container with the scalar added to every component of every dependent
variable; units and dimensions are untouched.  The check_scalar_object
helper (csdmpy.utils, not under src/) validates that the operand is a number
and returns it unchanged, so it is the identity on this branch. -/
def CSDM.addScalarNum (c : CSDM) (k : ℚ) : CSDM :=
  { c with dependent_variables := c.dependent_variables.map (fun v =>
      { v with components := v.components.map (fun x => x + k) }) }

/-- CSDM.__sub__ with a bare (unitless) scalar operand. -/
def CSDM.subScalarNum (c : CSDM) (k : ℚ) : CSDM :=
  { c with dependent_variables := c.dependent_variables.map (fun v =>
      { v with components := v.components.map (fun x => x - k) }) }

/-- CSDM.__mul__ with a quantity operand: for each dependent variable the
source computes value = 1 * item.subtype._unit * other, stores value.unit as
the new unit and multiplies the components by value.value. -/
def CSDM.mulQuantity (c : CSDM) (q : Qty) : CSDM :=
  { c with dependent_variables := c.dependent_variables.map (fun v =>
      let value := (unitAsQuantity v.unit).mul q
      { v with unit := value.unit,
               components := v.components.map (fun x => x * value.value) }) }

/-- CSDM.__mul__ with a bare (unitless) scalar operand: components are scaled
directly, units untouched. -/
def CSDM.mulScalarNum (c : CSDM) (k : ℚ) : CSDM :=
  { c with dependent_variables := c.dependent_variables.map (fun v =>
      { v with components := v.components.map (fun x => x * k) }) }

/-- C3. Multiplying a container by a quantity q of unit v turns each
dependent variable of unit u into one of unit u*v whose components are the
originals scaled by value(u*v)/value(u) times the value of q, where value(w)
denotes the numeric value of the quantity 1*w the source builds from a unit
w (so the ratio is 1 and the net scale factor is the value of q); a bare
scalar operand scales components directly and leaves every unit and the
dimension list unchanged. -/
theorem c3_quantity_scaling (c : CSDM) (q : Qty) (k : ℚ) :
    (c.mulQuantity q).dimensions = c.dimensions ∧
    (c.mulQuantity q).dependent_variables =
      c.dependent_variables.map (fun v =>
        { v with unit := v.unit.mul q.unit,
                 components := v.components.map (fun x =>
                   x * (((unitAsQuantity (v.unit.mul q.unit)).value /
                          (unitAsQuantity v.unit).value) * q.value)) }) ∧
    (c.mulScalarNum k).dimensions = c.dimensions ∧
    (c.mulScalarNum k).dependent_variables =
      c.dependent_variables.map (fun v =>
        { v with components := v.components.map (fun x => x * k) }) := by
  refine ⟨rfl, ?_, rfl, rfl⟩
  unfold CSDM.mulQuantity
  refine List.map_congr_left (fun v _ => ?_)
  simp [unitAsQuantity, Qty.mul]

/-- Round-trip lemma for lists of rationals: adding then subtracting the same
scalar is the identity. -/
lemma map_add_sub_cancel (l : List ℚ) (k : ℚ) :
    (l.map (fun x => x + k)).map (fun x => x - k) = l := by
  rw [List.map_map]
  have : ((fun x => x - k) ∘ fun x => x + k) = id := by
    funext x; simp
  rw [this, List.map_id]

/-- C4. For every container A and every unitless scalar k, (A + k) - k
returns A itself: component-wise the values return to the originals (exactly,
over the rationals) and the dimension list and every unit are unchanged; the
non-in-place forms build their result on a deep copy, so in this value model
the input container is untouched by construction. -/
theorem c4_add_sub_scalar_roundtrip (A : CSDM) (k : ℚ) :
    (A.addScalarNum k).subScalarNum k = A ∧
    (A.addScalarNum k).dimensions = A.dimensions ∧
    (A.addScalarNum k).dependent_variables.map (fun v => v.unit) =
      A.dependent_variables.map (fun v => v.unit) := by
  refine ⟨?_, rfl, ?_⟩
  · unfold CSDM.addScalarNum CSDM.subScalarNum
    cases A with
    | mk dims dvs =>
      simp only [List.map_map, CSDM.mk.injEq, true_and]
      refine List.map_congr_left (fun v _ => ?_) |>.trans (List.map_id dvs)
      simp only [Function.comp_apply, id_eq]
      rw [map_add_sub_cancel]
  · unfold CSDM.addScalarNum
    simp [List.map_map, Function.comp]

/-- A Python value passed as one index: an integer or anything else. -/
inductive PyVal where
  | int (i : ℤ)
  | other
deriving DecidableEq, Repr

/-- A Python index argument: a single value, or a tuple/list of values. -/
inductive PyIdx where
  | scalar (v : PyVal)
  | list (vs : List PyVal)
deriving DecidableEq, Repr

/-- Inner helper _correct_index of _check_dimension_indices
(src/csdmpy/csdm.py lines 1354-1364): a non-integer raises TypeError; a
negative index i gets d added once; the result raises IndexError only when it
exceeds d (the comparison the source writes is i > d); otherwise the
translated array axis -1-i is returned. -/
def correctIndex (d : Nat) (v : PyVal) : Except Err ℤ :=
  match v with
  | .other => .error .typeError
  | .int i =>
    let i := if i < 0 then i + d else i
    if i > d then .error .indexError
    else .ok (-1 - i)

/-- Sequential mapping of correctIndex over a list of index values, stopping
at the first failure (the Python for-loop raises at the first bad entry). -/
def correctIndexList (d : Nat) : List PyVal → Except Err (List ℤ)
  | [] => .ok []
  | v :: vs =>
    match correctIndex d v with
    | .error e => .error e
    | .ok i =>
      match correctIndexList d vs with
      | .error e => .error e
      | .ok rest => .ok (i :: rest)

/-- Function _check_dimension_indices (src/csdmpy/csdm.py lines 1346-1380):
translates a dimension-index argument (int, or tuple/list of ints) into the
tuple of negative array axes consumed by numpy; any non-integer raises
TypeError. -/
def checkDimensionIndices (d : Nat) (idx : PyIdx) : Except Err (List ℤ) :=
  match idx with
  | .list vs => correctIndexList d vs
  | .scalar (.int i) =>
    match correctIndex d (.int i) with
    | .error e => .error e
    | .ok j => .ok [j]
  | .scalar .other => .error .typeError

/-- C5 (code bug record). With d = 2 dimensions the source accepts the
out-of-range dimension index 2 (equal to d): the guard raises only for
indices strictly greater than d, so index d passes and is translated to the
array axis -1-d = -3, which addresses the leading component axis rather than
any dimension; the function's own docstring and IndexError message promise
rejection of every index beyond d-1.  A doubly-negative index is accepted
too: with d = 2 the index -5 normalizes to -3 and is translated to axis 2. -/
theorem c5_out_of_range_index_accepted :
    checkDimensionIndices 2 (.scalar (.int 2)) = .ok [-3] ∧
    checkDimensionIndices 2 (.scalar (.int (-5))) = .ok [2] ∧
    checkDimensionIndices 2 (.scalar (.int 3)) = .error .indexError ∧
    checkDimensionIndices 2 (.scalar .other) = .error .typeError := by
  exact ⟨rfl, rfl, rfl, rfl⟩

/-- Row-major enumeration of all multi-indices of an array shape (the order
numpy stores elements in). -/
def enumIdx : List Nat → List (List Nat)
  | [] => [[]]
  | n :: s => (List.range n).flatMap (fun i => (enumIdx s).map (fun t => i :: t))

/-- Row-major flat offset of a multi-index within a shape. -/
def flatIndex : List Nat → List Nat → Nat
  | _ :: s, i :: is => i * s.prod + flatIndex s is
  | _, _ => 0

/-- Element of a flat row-major array at a multi-index (0 outside range). -/
def flatGet (shape : List Nat) (data : List ℚ) (idx : List Nat) : ℚ :=
  data.getD (flatIndex shape idx) 0

/-- Reduction mask over array axes: entry j is true when axis j is reduced. -/
def maskOf (n : Nat) (axes : List Nat) : List Bool :=
  (List.range n).map (fun j => decide (j ∈ axes))

/-- Interleaves a multi-index over the kept axes with one over the reduced
axes, following the mask. -/
def mergeIdx : List Bool → List Nat → List Nat → List Nat
  | [], _, _ => []
  | true :: m, kept, rem => rem.headD 0 :: mergeIdx m kept rem.tail
  | false :: m, kept, rem => kept.headD 0 :: mergeIdx m kept.tail rem

/-- Model of a numpy reduction (sum, mean, max, ...) of a row-major array
over a set of axes: the reduced axes disappear from the shape, and each
surviving cell is the aggregate agg of the fiber of elements ranging over the
reduced axes.  Returns the result shape and the result data in row-major
order.  Instantiating agg with List.sum gives numpy.sum. -/
def npReduceAxes (agg : List ℚ → ℚ) (shape : List Nat) (data : List ℚ)
    (axes : List Nat) : List Nat × List ℚ :=
  let mask := maskOf shape.length axes
  let keptShape := ((shape.zip mask).filter (fun pr => !pr.2)).map (fun pr => pr.1)
  let remShape := ((shape.zip mask).filter (fun pr => pr.2)).map (fun pr => pr.1)
  (keptShape,
    (enumIdx keptShape).map (fun kidx =>
      agg ((enumIdx remShape).map (fun ridx =>
        flatGet shape data (mergeIdx mask kidx ridx)))))

/-- Reduction dispatch path np.sum(csdm, axis=...) through
CSDM.__array_function__ into
_get_new_csdm_object_after_dimension_reduction_func
(src/csdmpy/csdm.py lines 1543-1602), parametrized by the aggregation
function agg of the reduction (List.sum for np.sum).  With axis=None the
whole grid of every dependent variable aggregates to one plain value per
variable and the list of those values is returned instead of a container.
With an axis argument the indices are translated by _check_dimension_indices;
the new container keeps exactly the dimensions i with -1-i not among the
translated axes, and every dependent variable's p x (reversed counts) array
is reduced along the translated (negative, numpy-normalized) axes, the
result being reshaped to (leading axis, rest) and stored flat. -/
def reduceFunc (agg : List ℚ → ℚ) (c : CSDM) (axisArg : Option PyIdx) :
    Except Err (Sum (List ℚ) CSDM) :=
  match axisArg with
  | none => .ok (.inl (c.dependent_variables.map (fun v => agg v.components)))
  | some idx =>
    match checkDimensionIndices c.dimensions.length idx with
    | .error e => .error e
    | .ok axis =>
      let newDims := c.dimensions.enum.filterMap (fun pr =>
        if (-1 - (pr.1 : ℤ)) ∈ axis then none else some pr.2)
      let newDVs := c.dependent_variables.map (fun v =>
        let shape := v.p :: c.shape.reverse
        let axes := axis.map (fun a =>
          (if a < 0 then a + (shape.length : ℤ) else a).toNat)
        let r := npReduceAxes agg shape v.components axes
        { v with p := r.1.headD 0, components := r.2 })
      .ok (.inr { dimensions := newDims, dependent_variables := newDVs })

/-- The reduction result as the spec words it: the dimensions at the given
indices are removed from the dimension list, and each dependent variable's
components are reduced along the corresponding reversed array axes (dimension
index i of d maps to array axis d-i of the array with leading component
axis). -/
def reducedCSDMSpec (agg : List ℚ → ℚ) (c : CSDM) (ixs : List ℤ) : CSDM :=
  let d := c.dimensions.length
  { dimensions := c.dimensions.enum.filterMap (fun pr =>
      if (pr.1 : ℤ) ∈ ixs then none else some pr.2),
    dependent_variables := c.dependent_variables.map (fun v =>
      let shape := v.p :: c.shape.reverse
      let axes := ixs.map (fun i => d - i.toNat)
      { v with components := (npReduceAxes agg shape v.components axes).2 }) }

lemma correctIndexList_ok (d : Nat) (ixs : List ℤ)
    (h : ∀ i ∈ ixs, 0 ≤ i ∧ i < (d : ℤ)) :
    correctIndexList d (ixs.map PyVal.int) = .ok (ixs.map (fun i => -1 - i)) := by
  induction ixs with
  | nil => rfl
  | cons i rest ih =>
    obtain ⟨h0, hd⟩ := h i (List.mem_cons_self i rest)
    have hneg : ¬ i < 0 := by omega
    have hgt : ¬ (i > (d : ℤ)) := by omega
    simp only [List.map_cons, correctIndexList, correctIndex, hneg, if_false,
      hgt, ih (fun j hj => h j (List.mem_cons_of_mem i hj))]

lemma filterMap_congr_mem {α β : Type} (l : List α) (f g : α → Option β)
    (h : ∀ a ∈ l, f a = g a) : l.filterMap f = l.filterMap g := by
  induction l with
  | nil => rfl
  | cons x xs ih => simp_all [List.filterMap_cons]

lemma neg_translate_mem (k : ℤ) (ixs : List ℤ) :
    ((-1 - k) ∈ ixs.map (fun i => -1 - i)) ↔ k ∈ ixs := by
  rw [List.mem_map]
  constructor
  · rintro ⟨a, ha, hq⟩
    have : a = k := by omega
    rwa [this] at ha
  · exact fun hk => ⟨k, hk, rfl⟩

lemma npReduceAxes_head_of_not_mem (agg : List ℚ → ℚ) (p : Nat)
    (rest : List Nat) (data : List ℚ) (axes : List Nat) (h : 0 ∉ axes) :
    ((npReduceAxes agg (p :: rest) data axes).1).headD 0 = p := by
  unfold npReduceAxes maskOf
  simp only [List.length_cons, List.range_succ_eq_map, List.map_cons]
  have h0 : decide (0 ∈ axes) = false := by simpa using h
  simp [h0, List.filter_cons]

/-- C2. A reduction (parametrized by its aggregation function agg; List.sum
gives np.sum) over one or more valid dimension indices returns a container in
which exactly the named dimensions have been removed from the dimension list
and every dependent variable's p x (reversed counts) array has been reduced
along the corresponding reversed array axes (dimension index i maps to array
axis d-i past the leading component axis), while a reduction with no axis
argument returns one plain aggregate per dependent variable instead of a
container.  The claim's concrete case, dimension counts (3,4) with one scalar
dependent variable summed along dimension index 0, leaving one dimension of
count 4 and components of length 4, is exhibited by the witness below. -/
theorem c2_reduction_removes_dimensions (agg : List ℚ → ℚ) (c : CSDM)
    (ixs : List ℤ) (_hne : ixs ≠ [])
    (hb : ∀ i ∈ ixs, 0 ≤ i ∧ i < (c.dimensions.length : ℤ)) :
    reduceFunc agg c (some (.list (ixs.map PyVal.int))) =
      .ok (.inr (reducedCSDMSpec agg c ixs)) ∧
    reduceFunc agg c none =
      .ok (.inl (c.dependent_variables.map (fun v => agg v.components))) := by
  refine ⟨?_, rfl⟩
  simp only [reduceFunc, checkDimensionIndices]
  rw [correctIndexList_ok c.dimensions.length ixs hb]
  unfold reducedCSDMSpec
  refine congrArg _ (congrArg _ ?_)
  refine congrArg₂ _ ?_ ?_
  · refine filterMap_congr_mem _ _ _ (fun pr _ => ?_)
    exact if_congr (neg_translate_mem (pr.1 : ℤ) ixs) rfl rfl
  · refine List.map_congr_left (fun v _ => ?_)
    have hlen : ((v.p :: c.shape.reverse).length : ℤ) =
        (c.dimensions.length : ℤ) + 1 := by
      simp [CSDM.shape]
    have haxes : (ixs.map (fun i => -1 - i)).map (fun a =>
          (if a < 0 then a + ((v.p :: c.shape.reverse).length : ℤ)
           else a).toNat) =
        ixs.map (fun i => c.dimensions.length - i.toNat) := by
      rw [List.map_map]
      refine List.map_congr_left (fun i hi => ?_)
      obtain ⟨h0, hd⟩ := hb i hi
      have hneg : (-1 - i) < 0 := by omega
      simp only [Function.comp_apply, hneg, if_true, hlen]
      omega
    rw [haxes]
    have hnot : (0 : Nat) ∉ ixs.map (fun i => c.dimensions.length - i.toNat) := by
      rw [List.mem_map]
      rintro ⟨i, hi, hzero⟩
      obtain ⟨h0, hd⟩ := hb i hi
      omega
    rw [npReduceAxes_head_of_not_mem agg v.p c.shape.reverse v.components _ hnot]

/-- Witness for C2: a container with dimension counts (3,4) and a single
scalar (p = 1) dependent variable holding the 12 grid values 1..12; summing
along dimension index 0 removes that dimension, leaving the count-4 dimension
and components of length 4, and the no-axis form returns the plain total per
dependent variable.  The two decide conjuncts check the claimed concrete
shape facts (one remaining dimension of count 4, components of length 4). -/
theorem c2_witness :
    (([0] : List ℤ) ≠ [] ∧ ∀ i ∈ ([0] : List ℤ), 0 ≤ i ∧ i <
      ((CSDM.mk [Dimension.linear 3 1 0, Dimension.linear 4 1 0]
        [⟨⟨[]⟩, 1, [1,2,3,4,5,6,7,8,9,10,11,12]⟩]).dimensions.length : ℤ)) ∧
    (reduceFunc List.sum
        (CSDM.mk [Dimension.linear 3 1 0, Dimension.linear 4 1 0]
          [⟨⟨[]⟩, 1, [1,2,3,4,5,6,7,8,9,10,11,12]⟩])
        (some (.list (([0] : List ℤ).map PyVal.int))) =
      .ok (.inr (reducedCSDMSpec List.sum
        (CSDM.mk [Dimension.linear 3 1 0, Dimension.linear 4 1 0]
          [⟨⟨[]⟩, 1, [1,2,3,4,5,6,7,8,9,10,11,12]⟩]) [0])) ∧
      reduceFunc List.sum
        (CSDM.mk [Dimension.linear 3 1 0, Dimension.linear 4 1 0]
          [⟨⟨[]⟩, 1, [1,2,3,4,5,6,7,8,9,10,11,12]⟩]) none =
      .ok (.inl ((CSDM.mk [Dimension.linear 3 1 0, Dimension.linear 4 1 0]
          [⟨⟨[]⟩, 1, [1,2,3,4,5,6,7,8,9,10,11,12]⟩]).dependent_variables.map
            (fun v => List.sum v.components)))) ∧
    (reducedCSDMSpec List.sum
        (CSDM.mk [Dimension.linear 3 1 0, Dimension.linear 4 1 0]
          [⟨⟨[]⟩, 1, [1,2,3,4,5,6,7,8,9,10,11,12]⟩]) [0]).dimensions =
      [Dimension.linear 4 1 0] ∧
    ((reducedCSDMSpec List.sum
        (CSDM.mk [Dimension.linear 3 1 0, Dimension.linear 4 1 0]
          [⟨⟨[]⟩, 1, [1,2,3,4,5,6,7,8,9,10,11,12]⟩]) [0]).dependent_variables.map
      (fun v => v.components.length)) = [4] :=
  ⟨⟨by decide, by decide⟩,
    c2_reduction_removes_dimensions List.sum _ [0] (by decide) (by decide),
    by decide, by decide⟩

/-- A Python object held by (or offered to) one of the typed collections:
a Dimension, a DependentVariable, or anything else. -/
inductive PyObj where
  | dim (d : Dimension)
  | dv (v : DependentVariable)
  | other
deriving DecidableEq, Repr

/-- Whether an object is a valid Dimension element (the isinstance check of
DimensionList.__setitem__ against the dimension variants). -/
def isDimensionObj : PyObj → Bool
  | .dim _ => true
  | _ => false

/-- Whether an object is a valid DependentVariable element (the isinstance
check of DependentVariableList.__setitem__). -/
def isDependentVariableObj : PyObj → Bool
  | .dv _ => true
  | _ => false

/-- AbstractList.insert (src/csdmpy/csdm.py lines 96-98), inherited unchanged
by DimensionList and DependentVariableList: inserts the item at the position
with no type validation and never raises (list.insert clamps the position).
Returns the new list and the raised error, if any. -/
def abstractListInsert (l : List PyObj) (i : Nat) (x : PyObj) :
    List PyObj × Option Err :=
  (l.take i ++ x :: l.drop i, none)

/-- AbstractList.append (lines 100-102): insert at the current length. -/
def abstractListAppend (l : List PyObj) (x : PyObj) : List PyObj × Option Err :=
  abstractListInsert l l.length x

/-- AbstractList.__delitem__ (lines 89-91): always raises, list unchanged. -/
def abstractListDelItem (l : List PyObj) (_ : Nat) : List PyObj × Option Err :=
  (l, some .deleteNotAllowed)

/-- DimensionList.__setitem__ (lines 127-132): replacement validates the
element type, raising (with the list unchanged) for a non-Dimension item. -/
def dimensionListSetItem (l : List PyObj) (i : Nat) (x : PyObj) :
    List PyObj × Option Err :=
  if isDimensionObj x then (l.set i x, none) else (l, some .valueError)

/-- DependentVariableList.__setitem__ (lines 139-144). -/
def dependentVariableListSetItem (l : List PyObj) (i : Nat) (x : PyObj) :
    List PyObj × Option Err :=
  if isDependentVariableObj x then (l.set i x, none) else (l, some .valueError)

/-- C6 (counterexample). Inserting a wrong-typed item into a DimensionList
succeeds: AbstractList.insert, which DimensionList inherits unchanged,
performs no element-type validation, so the insert of a non-Dimension object
into an empty dimension list raises nothing and grows the list, where the
claim requires a TypeMismatch failure that leaves the collection unchanged. -/
theorem c6_counterexample_untyped_insert_succeeds :
    abstractListInsert [] 0 PyObj.other = ([PyObj.other], none) ∧
    abstractListAppend [] PyObj.other = ([PyObj.other], none) ∧
    isDimensionObj PyObj.other = false ∧
    isDependentVariableObj PyObj.other = false := by
  exact ⟨rfl, rfl, rfl, rfl⟩

/-- C6 (amended). The typed collections validate element types only on
replacement, not on insertion: append and insert always succeed with no type
check, a successful append growing the length by exactly one; replacement
through DimensionList.__setitem__ or DependentVariableList.__setitem__ fails
on a wrong-typed item with a type error naming the expected class and leaves
the collection unchanged, and succeeds on a well-typed item; deletion always
fails with the collection unchanged. -/
theorem c6_amended_collection_contract (l : List PyObj) (i : Nat) (x : PyObj) :
    (abstractListInsert l i x).2 = none ∧
    (abstractListInsert l i x).1.length = l.length + 1 ∧
    (abstractListAppend l x).1 = l ++ [x] ∧
    (abstractListAppend l x).2 = none ∧
    (abstractListAppend l x).1.length = l.length + 1 ∧
    abstractListDelItem l i = (l, some Err.deleteNotAllowed) ∧
    dimensionListSetItem l i x =
      (if isDimensionObj x then (l.set i x, none)
       else (l, some Err.valueError)) ∧
    dependentVariableListSetItem l i x =
      (if isDependentVariableObj x then (l.set i x, none)
       else (l, some Err.valueError)) := by
  have happ : (abstractListAppend l x).1 = l ++ [x] := by
    simp [abstractListAppend, abstractListInsert]
  refine ⟨rfl, ?_, happ, rfl, ?_, rfl, rfl, rfl⟩
  · simp [abstractListInsert]
    omega
  · rw [happ]; simp

/-- CSDM.argmax (src/csdmpy/csdm.py lines 1120-1121): raises
NotImplementedError. -/
def CSDM.argmax (_ : CSDM) (_ : Option PyIdx) : Except Err (Option CSDM) :=
  .error .notImplemented

/-- CSDM.argmin (lines 1138-1139). -/
def CSDM.argmin (_ : CSDM) (_ : Option PyIdx) : Except Err (Option CSDM) :=
  .error .notImplemented

/-- CSDM.ptp (lines 1141-1142). -/
def CSDM.ptp (_ : CSDM) (_ : Option PyIdx) : Except Err (Option CSDM) :=
  .error .notImplemented

/-- CSDM.trace (lines 1174-1175). -/
def CSDM.trace (_ : CSDM) : Except Err (Option CSDM) :=
  .error .notImplemented

/-- CSDM.cumsum (lines 1191-1192). -/
def CSDM.cumsum (_ : CSDM) (_ : Option PyIdx) : Except Err (Option CSDM) :=
  .error .notImplemented

/-- CSDM.cumprod (lines 1250-1251). -/
def CSDM.cumprod (_ : CSDM) (_ : Option PyIdx) : Except Err (Option CSDM) :=
  .error .notImplemented

/-- CSDM.transpose (lines 1254-1255): the body is a bare pass, so the call
raises nothing and returns None. -/
def CSDM.transposeMethod (_ : CSDM) : Except Err (Option CSDM) :=
  .ok none

/-- C8 (counterexample). The transpose method does not raise: called on a
container it returns None silently (a silent no-op), where the claim says it
raises a NotImplemented-class error like the other stubs. -/
theorem c8_counterexample_transpose_returns_none :
    CSDM.transposeMethod ⟨[], []⟩ = .ok none ∧
    (CSDM.transposeMethod ⟨[], []⟩).isOk = true :=
  ⟨rfl, rfl⟩

/-- C8 (amended). The six explicitly-stubbed numpy-analog methods argmax,
argmin, cumsum, cumprod, trace and ptp raise NotImplementedError on every
container; the transpose method instead silently returns None without
raising. -/
theorem c8_amended_stub_methods (c : CSDM) (axis : Option PyIdx) :
    c.argmax axis = .error .notImplemented ∧
    c.argmin axis = .error .notImplemented ∧
    c.cumsum axis = .error .notImplemented ∧
    c.cumprod axis = .error .notImplemented ∧
    c.trace = .error .notImplemented ∧
    c.ptp axis = .error .notImplemented ∧
    c.transposeMethod = .ok none :=
  ⟨rfl, rfl, rfl, rfl, rfl, rfl, rfl⟩

/-- Loop of CSDM.__iadd__ with a quantity operand (src/csdmpy/csdm.py lines
375-380): for each dependent variable in order, the conversion factor of the
operand's unit to the variable's unit is computed - raising immediately when
the units are not convertible - and the variable's components are then
mutated in place.  The returned pair is the dependent-variable list as it
stands when the call finishes or the exception propagates, together with the
raised error, if any: on a failure at some variable, the earlier variables
have already been mutated and the later ones never are. -/
def iaddQuantityLoop (q : Qty) :
    List DependentVariable → List DependentVariable × Option Err
  | [] => ([], none)
  | v :: vs =>
    match q.unit.to v.unit with
    | .error e => (v :: vs, some e)
    | .ok f =>
      let comps := v.components.map (fun x => x + f * q.value)
      let r := iaddQuantityLoop q vs
      ({ v with components := comps } :: r.1, r.2)

/-- Loop of CSDM.__isub__ with a quantity operand (lines 444-449). -/
def isubQuantityLoop (q : Qty) :
    List DependentVariable → List DependentVariable × Option Err
  | [] => ([], none)
  | v :: vs =>
    match q.unit.to v.unit with
    | .error e => (v :: vs, some e)
    | .ok f =>
      let comps := v.components.map (fun x => x - f * q.value)
      let r := isubQuantityLoop q vs
      ({ v with components := comps } :: r.1, r.2)

/-- CSDM.__iadd__ with a quantity operand: the state of the container when
the call returns or the exception propagates. -/
def CSDM.iaddQuantity (c : CSDM) (q : Qty) : CSDM × Option Err :=
  let r := iaddQuantityLoop q c.dependent_variables
  ({ c with dependent_variables := r.1 }, r.2)

/-- CSDM.__isub__ with a quantity operand. -/
def CSDM.isubQuantity (c : CSDM) (q : Qty) : CSDM × Option Err :=
  let r := isubQuantityLoop q c.dependent_variables
  ({ c with dependent_variables := r.1 }, r.2)

/-- The meter symbol: physical type length, SI factor 1. -/
def meterSym : UnitSym := ⟨⟨1, 0⟩, 1⟩

/-- The second symbol: physical type time, SI factor 1. -/
def secondSym : UnitSym := ⟨⟨0, 1⟩, 1⟩

/-- A two-variable container whose first dependent variable is in meters and
whose second is in seconds, each holding the single component 0. -/
def twoUnitExample : CSDM :=
  ⟨[], [⟨⟨[meterSym]⟩, 1, [0]⟩, ⟨⟨[secondSym]⟩, 1, [0]⟩]⟩

/-- C7 (counterexample). An in-place addition of the quantity 1 meter to a
container whose first dependent variable is in meters and whose second is in
seconds fails at the second variable (meter does not convert to second), yet
the first variable's components have already been mutated from [0] to [1]:
the validation failure does not leave every dependent variable's components
as they were, refuting the no-partial-mutation claim. -/
theorem c7_counterexample_partial_mutation :
    (twoUnitExample.iaddQuantity ⟨1, ⟨[meterSym]⟩⟩).2 =
      some Err.unitConversion ∧
    ((twoUnitExample.iaddQuantity ⟨1, ⟨[meterSym]⟩⟩).1.dependent_variables.map
      (fun v => v.components)) = [[1], [0]] ∧
    (twoUnitExample.dependent_variables.map (fun v => v.components)) =
      [[0], [0]] ∧
    (twoUnitExample.iaddQuantity ⟨1, ⟨[meterSym]⟩⟩).1 ≠ twoUnitExample := by
  have hto : SUnit.to ⟨[meterSym]⟩ ⟨[meterSym]⟩ = .ok 1 := by
    unfold SUnit.to SUnit.siValue
    norm_num [meterSym]
  have hto2 : SUnit.to ⟨[meterSym]⟩ ⟨[secondSym]⟩ =
      .error .unitConversion := by
    unfold SUnit.to
    have hne : SUnit.physicalType ⟨[meterSym]⟩ ≠
        SUnit.physicalType ⟨[secondSym]⟩ := by decide
    simp [hne]
  have hloop : iaddQuantityLoop ⟨1, ⟨[meterSym]⟩⟩
      [⟨⟨[meterSym]⟩, 1, [0]⟩, ⟨⟨[secondSym]⟩, 1, [0]⟩] =
      ([⟨⟨[meterSym]⟩, 1, [1]⟩, ⟨⟨[secondSym]⟩, 1, [0]⟩],
        some .unitConversion) := by
    simp only [iaddQuantityLoop, hto, hto2, List.map_cons, List.map_nil]
    norm_num
  have hmut : ((twoUnitExample.iaddQuantity
      ⟨1, ⟨[meterSym]⟩⟩).1.dependent_variables.map (fun v => v.components)) =
      [[1], [0]] := by
    simp [CSDM.iaddQuantity, twoUnitExample, hloop]
  refine ⟨?_, hmut, rfl, ?_⟩
  · simp [CSDM.iaddQuantity, twoUnitExample, hloop]
  · intro hcontra
    rw [hcontra] at hmut
    have hconc : (twoUnitExample.dependent_variables.map
        (fun v => v.components)) = [[0], [0]] := rfl
    rw [hconc] at hmut
    exact absurd hmut (by decide)

/-- The in-place update CSDM.__iadd__ applies to one dependent variable when
the operand quantity's unit converts to the variable's unit (identity when it
does not, since the exception prevents the mutation). -/
def applyQuantityAdd (q : Qty) (v : DependentVariable) : DependentVariable :=
  match q.unit.to v.unit with
  | .ok f => { v with components := v.components.map (fun x => x + f * q.value) }
  | .error _ => v

/-- The in-place update CSDM.__isub__ applies to one dependent variable. -/
def applyQuantitySub (q : Qty) (v : DependentVariable) : DependentVariable :=
  match q.unit.to v.unit with
  | .ok f => { v with components := v.components.map (fun x => x - f * q.value) }
  | .error _ => v

lemma quantityLoop_partial_mutation (q : Qty) (dvs : List DependentVariable)
    (h : (iaddQuantityLoop q dvs).2.isSome = true) :
    ∃ j, j < dvs.length ∧
      (q.unit.to (dvs.getD j dvDefault).unit).isOk = false ∧
      (iaddQuantityLoop q dvs).1.drop j = dvs.drop j ∧
      (iaddQuantityLoop q dvs).1.take j =
        (dvs.take j).map (applyQuantityAdd q) ∧
      (isubQuantityLoop q dvs).2.isSome = true ∧
      (isubQuantityLoop q dvs).1.drop j = dvs.drop j ∧
      (isubQuantityLoop q dvs).1.take j =
        (dvs.take j).map (applyQuantitySub q) := by
  induction dvs with
  | nil => simp [iaddQuantityLoop] at h
  | cons v vs ih =>
    cases hto : q.unit.to v.unit with
    | error e =>
      refine ⟨0, by simp, ?_, ?_, ?_, ?_, ?_, ?_⟩ <;>
        simp [iaddQuantityLoop, isubQuantityLoop, hto, Except.isOk,
          Except.toBool]
    | ok f =>
      have hvs : (iaddQuantityLoop q vs).2.isSome = true := by
        simpa [iaddQuantityLoop, hto] using h
      obtain ⟨j, hj, hfail, hdrop, htake, hs2, hsdrop, hstake⟩ := ih hvs
      refine ⟨j + 1, by simpa using hj, by simpa using hfail, ?_, ?_, ?_, ?_, ?_⟩
      · simpa [iaddQuantityLoop, hto] using hdrop
      · have hv : applyQuantityAdd q v =
            { v with components := v.components.map (fun x => x + f * q.value) } := by
          simp [applyQuantityAdd, hto]
        simp [iaddQuantityLoop, hto, hv, htake]
      · simpa [isubQuantityLoop, hto] using hs2
      · simpa [isubQuantityLoop, hto] using hsdrop
      · have hv : applyQuantitySub q v =
            { v with components := v.components.map (fun x => x - f * q.value) } := by
          simp [applyQuantitySub, hto]
        simp [isubQuantityLoop, hto, hv, hstake]

/-- C7 (amended). A validation failure in CSDM-operand in-place arithmetic
still precedes all mutation (the compatibility check of
__check_csdm_object_additive_compatibility runs before the loop), but the
quantity-operand in-place forms validate unit convertibility per dependent
variable inside the mutation loop: when the operand's unit fails to convert
to the j-th dependent variable's unit, the variables from index j onward keep
their components exactly as they were, while the variables before j have
already been mutated by the converted operand; in particular a container with
a single dependent variable is left fully unchanged by a failing call. -/
theorem c7_amended_failure_mutates_only_earlier_variables (c : CSDM) (q : Qty)
    (h : ((c.iaddQuantity q).2).isSome = true) :
    ∃ j, j < c.dependent_variables.length ∧
      (q.unit.to (c.dependent_variables.getD j dvDefault).unit).isOk = false ∧
      (c.iaddQuantity q).1.dependent_variables.drop j =
        c.dependent_variables.drop j ∧
      (c.iaddQuantity q).1.dependent_variables.take j =
        (c.dependent_variables.take j).map (applyQuantityAdd q) ∧
      ((c.isubQuantity q).2).isSome = true ∧
      (c.isubQuantity q).1.dependent_variables.drop j =
        c.dependent_variables.drop j ∧
      (c.isubQuantity q).1.dependent_variables.take j =
        (c.dependent_variables.take j).map (applyQuantitySub q) := by
  have hl : (iaddQuantityLoop q c.dependent_variables).2.isSome = true := by
    simpa [CSDM.iaddQuantity] using h
  obtain ⟨j, hj, hfail, hdrop, htake, hs2, hsdrop, hstake⟩ :=
    quantityLoop_partial_mutation q c.dependent_variables hl
  exact ⟨j, hj, hfail, by simpa [CSDM.iaddQuantity] using hdrop,
    by simpa [CSDM.iaddQuantity] using htake,
    by simpa [CSDM.isubQuantity] using hs2,
    by simpa [CSDM.isubQuantity] using hsdrop,
    by simpa [CSDM.isubQuantity] using hstake⟩

/-- Witness for the amended C7 at the concrete two-variable container: the
in-place addition of 1 meter fails, and the amended suffix/prefix description
holds there. -/
theorem c7_amended_witness :
    ((twoUnitExample.iaddQuantity ⟨1, ⟨[meterSym]⟩⟩).2).isSome = true ∧
    (∃ j, j < twoUnitExample.dependent_variables.length ∧
      (SUnit.to ⟨[meterSym]⟩
        (twoUnitExample.dependent_variables.getD j dvDefault).unit).isOk =
          false ∧
      (twoUnitExample.iaddQuantity
        ⟨1, ⟨[meterSym]⟩⟩).1.dependent_variables.drop j =
        twoUnitExample.dependent_variables.drop j ∧
      (twoUnitExample.iaddQuantity
        ⟨1, ⟨[meterSym]⟩⟩).1.dependent_variables.take j =
        (twoUnitExample.dependent_variables.take j).map
          (applyQuantityAdd ⟨1, ⟨[meterSym]⟩⟩) ∧
      ((twoUnitExample.isubQuantity ⟨1, ⟨[meterSym]⟩⟩).2).isSome = true ∧
      (twoUnitExample.isubQuantity
        ⟨1, ⟨[meterSym]⟩⟩).1.dependent_variables.drop j =
        twoUnitExample.dependent_variables.drop j ∧
      (twoUnitExample.isubQuantity
        ⟨1, ⟨[meterSym]⟩⟩).1.dependent_variables.take j =
        (twoUnitExample.dependent_variables.take j).map
          (applyQuantitySub ⟨1, ⟨[meterSym]⟩⟩)) :=
  ⟨by decide, c7_amended_failure_mutates_only_earlier_variables
    twoUnitExample ⟨1, ⟨[meterSym]⟩⟩ (by decide)⟩

/-- A heap of the mutable Python objects the aliasing claims are about:
dimension lists, dependent-variable lists, tag lists, application
dictionaries and geographic-coordinate dictionaries, each addressed by the
index at which it was allocated.  Two container fields alias exactly when
they hold the same address. -/
structure Store where
  dimLists : List (List Dimension)
  dvLists : List (List DependentVariable)
  tagLists : List (List String)
  appDicts : List (List (String × String))
  geoDicts : List (List (String × String))
deriving DecidableEq, Repr

/-- The CSDM container with its mutable slots as store addresses (the
reference-level view of class CSDM: _dimensions, _dependent_variables,
_tags, _application and _geographic_coordinate are object references, while
the remaining slots hold immutable Python values copied inline). -/
structure CSDMRef where
  dims : Nat
  dvs : Nat
  tags : Nat
  app : Nat
  geo : Nat
  readOnly : Bool
  version : String
  timestamp : String
  description : String
  filename : String
deriving DecidableEq, Repr

/-- Allocates a fresh dimension list, returning its address. -/
def Store.allocDims (s : Store) (l : List Dimension) : Store × Nat :=
  ({ s with dimLists := s.dimLists ++ [l] }, s.dimLists.length)

/-- Allocates a fresh dependent-variable list, returning its address. -/
def Store.allocDVs (s : Store) (l : List DependentVariable) : Store × Nat :=
  ({ s with dvLists := s.dvLists ++ [l] }, s.dvLists.length)

/-- Allocates a fresh tag list, returning its address. -/
def Store.allocTags (s : Store) (l : List String) : Store × Nat :=
  ({ s with tagLists := s.tagLists ++ [l] }, s.tagLists.length)

/-- Allocates a fresh application dictionary, returning its address. -/
def Store.allocApp (s : Store) (l : List (String × String)) : Store × Nat :=
  ({ s with appDicts := s.appDicts ++ [l] }, s.appDicts.length)

/-- Allocates a fresh geographic-coordinate dictionary. -/
def Store.allocGeo (s : Store) (l : List (String × String)) : Store × Nat :=
  ({ s with geoDicts := s.geoDicts ++ [l] }, s.geoDicts.length)

/-- Reads the dimension list a container's dimensions slot points at. -/
def Store.getDims (s : Store) (c : CSDMRef) : List Dimension :=
  s.dimLists.getD c.dims []

/-- Mutates the dimension list a container's dimensions slot points at (a
supported mutation path such as DimensionList.__setitem__ through the
container's dimensions attribute). -/
def Store.setDims (s : Store) (c : CSDMRef) (l : List Dimension) : Store :=
  { s with dimLists := s.dimLists.set c.dims l }

/-- Reads the tag list of a container. -/
def Store.getTags (s : Store) (c : CSDMRef) : List String :=
  s.tagLists.getD c.tags []

/-- Appends a tag through a container (tags.append(t)). -/
def Store.appendTag (s : Store) (c : CSDMRef) (t : String) : Store :=
  { s with tagLists :=
      s.tagLists.set c.tags (s.tagLists.getD c.tags [] ++ [t]) }

/-- Reads the application dictionary of a container. -/
def Store.getApp (s : Store) (c : CSDMRef) : List (String × String) :=
  s.appDicts.getD c.app []

/-- Inserts an application key through a container (application[k] = v for a
fresh key, modelled as appending the pair). -/
def Store.insertAppKey (s : Store) (c : CSDMRef) (k v : String) : Store :=
  { s with appDicts :=
      s.appDicts.set c.app (s.appDicts.getD c.app [] ++ [(k, v)]) }

/-- Reads the geographic-coordinate dictionary of a container. -/
def Store.getGeo (s : Store) (c : CSDMRef) : List (String × String) :=
  s.geoDicts.getD c.geo []

/-- Inserts a geographic-coordinate key through a container. -/
def Store.insertGeoKey (s : Store) (c : CSDMRef) (k v : String) : Store :=
  { s with geoDicts :=
      s.geoDicts.set c.geo (s.geoDicts.getD c.geo [] ++ [(k, v)]) }

/-- Loop of CSDM.split (src/csdmpy/csdm.py lines 1091-1096): for each
dependent variable of the original, new_object() builds a sibling whose
_dimensions, _tags, _application and _geographic_coordinate slots receive
the original's references while _dependent_variables receives a freshly
allocated one-element list. -/
def splitGo (base : CSDMRef) :
    Store → List DependentVariable → Store × List CSDMRef
  | s, [] => (s, [])
  | s, v :: vs =>
    let al := s.allocDVs [v]
    let r := splitGo base al.1 vs
    (r.1, { base with dvs := al.2 } :: r.2)

/-- CSDM.split (lines 1062-1096). -/
def CSDMRef.split (c : CSDMRef) (s : Store) : Store × List CSDMRef :=
  splitGo c s (s.dvLists.getD c.dvs [])

/-- CSDM.copy (lines 1050-1060): deepcopy allocates fresh storage for every
mutable slot and copies the current contents into it. -/
def CSDMRef.copy (c : CSDMRef) (s : Store) : Store × CSDMRef :=
  let a1 := s.allocDims (s.dimLists.getD c.dims [])
  let a2 := a1.1.allocDVs (a1.1.dvLists.getD c.dvs [])
  let a3 := a2.1.allocTags (a2.1.tagLists.getD c.tags [])
  let a4 := a3.1.allocApp (a3.1.appDicts.getD c.app [])
  let a5 := a4.1.allocGeo (a4.1.geoDicts.getD c.geo [])
  (a5.1, { c with dims := a1.2, dvs := a2.2, tags := a3.2,
                  app := a4.2, geo := a5.2 })

/-- Validity of a container's addresses in a store. -/
def WFRef (s : Store) (c : CSDMRef) : Prop :=
  c.dims < s.dimLists.length ∧ c.dvs < s.dvLists.length ∧
  c.tags < s.tagLists.length ∧ c.app < s.appDicts.length ∧
  c.geo < s.geoDicts.length

instance (s : Store) (c : CSDMRef) : Decidable (WFRef s c) := by
  unfold WFRef
  infer_instance

lemma storeGetD_set_self {α : Type} (l : List α) (i : Nat) (a d : α)
    (h : i < l.length) : (l.set i a).getD i d = a := by
  induction l generalizing i with
  | nil => simp at h
  | cons x xs ih =>
    cases i with
    | zero => rfl
    | succ j => exact ih j (by simpa using h)

lemma storeGetD_set_ne {α : Type} (l : List α) (i j : Nat) (a d : α)
    (h : i ≠ j) : (l.set i a).getD j d = l.getD j d := by
  induction l generalizing i j with
  | nil => rfl
  | cons x xs ih =>
    cases i with
    | zero => cases j with
      | zero => exact absurd rfl h
      | succ j2 => rfl
    | succ i2 => cases j with
      | zero => rfl
      | succ j2 => exact ih i2 j2 (by omega)

lemma storeGetD_append_lt {α : Type} (l m : List α) (i : Nat) (d : α)
    (h : i < l.length) : (l ++ m).getD i d = l.getD i d := by
  induction l generalizing i with
  | nil => simp at h
  | cons x xs ih =>
    cases i with
    | zero => rfl
    | succ j => exact ih j (by simpa using h)

lemma splitGo_members (base : CSDMRef) (s : Store)
    (l : List DependentVariable) :
    ∀ x ∈ (splitGo base s l).2,
      x.dims = base.dims ∧ x.tags = base.tags ∧ x.app = base.app ∧
      x.geo = base.geo := by
  induction l generalizing s with
  | nil => intro x hx; simp [splitGo] at hx
  | cons v vs ih =>
    intro x hx
    simp only [splitGo, List.mem_cons] at hx
    rcases hx with hx | hx
    · subst hx; exact ⟨rfl, rfl, rfl, rfl⟩
    · exact ih _ x hx

lemma splitGo_store (base : CSDMRef) (s : Store)
    (l : List DependentVariable) :
    (splitGo base s l).1.dimLists = s.dimLists ∧
    (splitGo base s l).1.tagLists = s.tagLists ∧
    (splitGo base s l).1.appDicts = s.appDicts ∧
    (splitGo base s l).1.geoDicts = s.geoDicts := by
  induction l generalizing s with
  | nil => exact ⟨rfl, rfl, rfl, rfl⟩
  | cons v vs ih =>
    simpa [splitGo, Store.allocDVs] using ih { s with dvLists := s.dvLists ++ [[v]] }

lemma splitGo_length (base : CSDMRef) (s : Store)
    (l : List DependentVariable) :
    (splitGo base s l).2.length = l.length := by
  induction l generalizing s with
  | nil => rfl
  | cons v vs ih => simpa [splitGo] using ih _

lemma copy_addresses (c : CSDMRef) (s : Store) :
    ((c.copy s).1).dimLists = s.dimLists ++ [s.dimLists.getD c.dims []] ∧
    (c.copy s).2.dims = s.dimLists.length ∧
    (c.copy s).2.dvs = s.dvLists.length ∧
    (c.copy s).2.tags = s.tagLists.length ∧
    (c.copy s).2.app = s.appDicts.length ∧
    (c.copy s).2.geo = s.geoDicts.length :=
  ⟨rfl, rfl, rfl, rfl, rfl, rfl⟩

/-- C9. For a container with at least two dependent variables, split returns
one sibling container per dependent variable; every sibling's dimensions
slot holds the very same store address as the original, so a mutation of the
dimension list performed through any sibling is observed by every other
sibling; a copy of any sibling (or of the original) receives fresh addresses
for every mutable slot - dimension list, tag list, application and
geographic-coordinate dictionaries - and mutating the copy's dimension list
leaves what the siblings and the original read entirely unchanged. -/
theorem c9_split_aliasing_and_copy_independence (s : Store) (c : CSDMRef)
    (hwf : WFRef s c) (_h2 : 2 ≤ (s.dvLists.getD c.dvs []).length) :
    (c.split s).2.length = (s.dvLists.getD c.dvs []).length ∧
    (∀ x ∈ (c.split s).2, x.dims = c.dims) ∧
    (∀ x ∈ (c.split s).2, ∀ y ∈ (c.split s).2, ∀ l,
      (((c.split s).1.setDims x l).getDims y) = l) ∧
    (∀ x ∈ (c.split s).2,
      (x.copy (c.split s).1).2.dims ≠ x.dims ∧
      (x.copy (c.split s).1).2.tags ≠ x.tags ∧
      (x.copy (c.split s).1).2.app ≠ x.app ∧
      (x.copy (c.split s).1).2.geo ≠ x.geo ∧
      (∀ l, (((x.copy (c.split s).1).1.setDims (x.copy (c.split s).1).2
          l).getDims x) = s.getDims c)) := by
  unfold CSDMRef.split
  obtain ⟨hwdims, hwdvs, hwtags, hwapp, hwgeo⟩ := hwf
  have hstore := splitGo_store c s (s.dvLists.getD c.dvs [])
  obtain ⟨hsd, hst, hsa, hsg⟩ := hstore
  have hmem := splitGo_members c s (s.dvLists.getD c.dvs [])
  refine ⟨splitGo_length c s _, fun x hx => (hmem x hx).1, ?_, ?_⟩
  · intro x hx y hy l
    obtain ⟨hxd, _, _, _⟩ := hmem x hx
    obtain ⟨hyd, _, _, _⟩ := hmem y hy
    unfold Store.setDims Store.getDims
    simp only [hxd, hyd, hsd]
    exact storeGetD_set_self s.dimLists c.dims l [] hwdims
  · intro x hx
    obtain ⟨hxd, hxt, hxa, hxg⟩ := hmem x hx
    obtain ⟨hcd, hc1, hc2, hc3, hc4, hc5⟩ :=
      copy_addresses x (splitGo c s (s.dvLists.getD c.dvs [])).1
    refine ⟨?_, ?_, ?_, ?_, ?_⟩
    · rw [hc1, hxd, hsd]; omega
    · rw [hc3, hxt, hst]; omega
    · rw [hc4, hxa, hsa]; omega
    · rw [hc5, hxg, hsg]; omega
    · intro l
      unfold Store.setDims Store.getDims
      simp only [hcd, hc1, hxd, hsd]
      rw [storeGetD_set_ne _ _ _ _ _ (by omega),
        storeGetD_append_lt _ _ _ _ hwdims]

/-- C10. Every sibling returned by split also shares, by the very same store
address, the original container's tag list, application dictionary and
geographic-coordinate dictionary: appending a tag, inserting an application
key or inserting a geographic-coordinate key through any one sibling is
observed by every other sibling and by the original container. -/
theorem c10_split_shares_tags_application_geo (s : Store) (c : CSDMRef)
    (hwf : WFRef s c) :
    (∀ x ∈ (c.split s).2, x.tags = c.tags ∧ x.app = c.app ∧ x.geo = c.geo) ∧
    (∀ x ∈ (c.split s).2, ∀ t,
      (((c.split s).1.appendTag x t).getTags c) = s.getTags c ++ [t] ∧
      ∀ y ∈ (c.split s).2,
        (((c.split s).1.appendTag x t).getTags y) = s.getTags c ++ [t]) ∧
    (∀ x ∈ (c.split s).2, ∀ k v,
      (((c.split s).1.insertAppKey x k v).getApp c) = s.getApp c ++ [(k, v)] ∧
      ∀ y ∈ (c.split s).2,
        (((c.split s).1.insertAppKey x k v).getApp y) =
          s.getApp c ++ [(k, v)]) ∧
    (∀ x ∈ (c.split s).2, ∀ k v,
      (((c.split s).1.insertGeoKey x k v).getGeo c) = s.getGeo c ++ [(k, v)] ∧
      ∀ y ∈ (c.split s).2,
        (((c.split s).1.insertGeoKey x k v).getGeo y) =
          s.getGeo c ++ [(k, v)]) := by
  unfold CSDMRef.split
  obtain ⟨hwdims, hwdvs, hwtags, hwapp, hwgeo⟩ := hwf
  obtain ⟨hsd, hst, hsa, hsg⟩ := splitGo_store c s (s.dvLists.getD c.dvs [])
  have hmem := splitGo_members c s (s.dvLists.getD c.dvs [])
  refine ⟨fun x hx => ⟨(hmem x hx).2.1, (hmem x hx).2.2.1, (hmem x hx).2.2.2⟩,
    ?_, ?_, ?_⟩
  · intro x hx t
    obtain ⟨_, hxt, _, _⟩ := hmem x hx
    have hcore : (((c.split s).1.appendTag x t).getTags c) =
        s.getTags c ++ [t] := by
      unfold CSDMRef.split Store.appendTag Store.getTags
      simp only [hxt, hst]
      rw [storeGetD_set_self _ _ _ _ hwtags]
    refine ⟨hcore, fun y hy => ?_⟩
    obtain ⟨_, hyt, _, _⟩ := hmem y hy
    unfold CSDMRef.split at hcore
    unfold Store.appendTag Store.getTags at hcore ⊢
    simpa [hyt] using hcore
  · intro x hx k v
    obtain ⟨_, _, hxa, _⟩ := hmem x hx
    have hcore : (((c.split s).1.insertAppKey x k v).getApp c) =
        s.getApp c ++ [(k, v)] := by
      unfold CSDMRef.split Store.insertAppKey Store.getApp
      simp only [hxa, hsa]
      rw [storeGetD_set_self _ _ _ _ hwapp]
    refine ⟨hcore, fun y hy => ?_⟩
    obtain ⟨_, _, hya, _⟩ := hmem y hy
    unfold CSDMRef.split at hcore
    unfold Store.insertAppKey Store.getApp at hcore ⊢
    simpa [hya] using hcore
  · intro x hx k v
    obtain ⟨_, _, _, hxg⟩ := hmem x hx
    have hcore : (((c.split s).1.insertGeoKey x k v).getGeo c) =
        s.getGeo c ++ [(k, v)] := by
      unfold CSDMRef.split Store.insertGeoKey Store.getGeo
      simp only [hxg, hsg]
      rw [storeGetD_set_self _ _ _ _ hwgeo]
    refine ⟨hcore, fun y hy => ?_⟩
    obtain ⟨_, _, _, hyg⟩ := hmem y hy
    unfold CSDMRef.split at hcore
    unfold Store.insertGeoKey Store.getGeo at hcore ⊢
    simpa [hyg] using hcore

/-- A concrete one-container heap: one dimension list, one two-variable
dependent-variable list, one tag list, one application dictionary, one
geographic-coordinate dictionary. -/
def storeExample : Store :=
  ⟨[[Dimension.linear 2 1 0]],
   [[⟨⟨[meterSym]⟩, 1, [0]⟩, ⟨⟨[secondSym]⟩, 1, [0]⟩]],
   [["nmr"]],
   [[("com.example.app", "meta")]],
   [[("latitude", "10 deg")]]⟩

/-- The container whose slots point at the heads of storeExample. -/
def refExample : CSDMRef :=
  ⟨0, 0, 0, 0, 0, false, "1.0", "", "", ""⟩

/-- Witness for C9 at the concrete two-variable container. -/
theorem c9_witness :
    (WFRef storeExample refExample ∧
      2 ≤ (storeExample.dvLists.getD refExample.dvs []).length) ∧
    ((refExample.split storeExample).2.length =
      (storeExample.dvLists.getD refExample.dvs []).length ∧
    (∀ x ∈ (refExample.split storeExample).2, x.dims = refExample.dims) ∧
    (∀ x ∈ (refExample.split storeExample).2,
      ∀ y ∈ (refExample.split storeExample).2, ∀ l,
      (((refExample.split storeExample).1.setDims x l).getDims y) = l) ∧
    (∀ x ∈ (refExample.split storeExample).2,
      (x.copy (refExample.split storeExample).1).2.dims ≠ x.dims ∧
      (x.copy (refExample.split storeExample).1).2.tags ≠ x.tags ∧
      (x.copy (refExample.split storeExample).1).2.app ≠ x.app ∧
      (x.copy (refExample.split storeExample).1).2.geo ≠ x.geo ∧
      (∀ l, (((x.copy (refExample.split storeExample).1).1.setDims
          (x.copy (refExample.split storeExample).1).2 l).getDims x) =
        storeExample.getDims refExample))) :=
  ⟨⟨by decide, by decide⟩,
    c9_split_aliasing_and_copy_independence storeExample refExample
      (by decide) (by decide)⟩

/-- Witness for C10 at the concrete two-variable container. -/
theorem c10_witness :
    WFRef storeExample refExample ∧
    ((∀ x ∈ (refExample.split storeExample).2,
      x.tags = refExample.tags ∧ x.app = refExample.app ∧
      x.geo = refExample.geo) ∧
    (∀ x ∈ (refExample.split storeExample).2, ∀ t,
      (((refExample.split storeExample).1.appendTag x t).getTags refExample) =
        storeExample.getTags refExample ++ [t] ∧
      ∀ y ∈ (refExample.split storeExample).2,
        (((refExample.split storeExample).1.appendTag x t).getTags y) =
          storeExample.getTags refExample ++ [t]) ∧
    (∀ x ∈ (refExample.split storeExample).2, ∀ k v,
      (((refExample.split storeExample).1.insertAppKey x k v).getApp
          refExample) = storeExample.getApp refExample ++ [(k, v)] ∧
      ∀ y ∈ (refExample.split storeExample).2,
        (((refExample.split storeExample).1.insertAppKey x k v).getApp y) =
          storeExample.getApp refExample ++ [(k, v)]) ∧
    (∀ x ∈ (refExample.split storeExample).2, ∀ k v,
      (((refExample.split storeExample).1.insertGeoKey x k v).getGeo
          refExample) = storeExample.getGeo refExample ++ [(k, v)] ∧
      ∀ y ∈ (refExample.split storeExample).2,
        (((refExample.split storeExample).1.insertGeoKey x k v).getGeo y) =
          storeExample.getGeo refExample ++ [(k, v)])) :=
  ⟨by decide,
    c10_split_shares_tags_application_geo storeExample refExample (by decide)⟩
